import Mathlib

/-!
Verification of the pgkit PostgreSQL provisioning tool.

This file shallow-embeds the three engines of the repository
(`src/services/sql_executor.py`, `src/services/schema_dumper.py`,
`src/services/verification_service.py`) as executable Lean definitions and
proves properties of the resulting functions.  Python strings are modelled
as Lean `String` (a wrapper around `List Char`); Python lists as Lean
lists; the psycopg2 connection as an explicit state record; exceptions as
`Except`.  Text-building helpers (`pyJoin`, `pyStrip`, ...) model the
corresponding Python `str` methods and are defined by structural recursion
so that every definition evaluates inside the kernel.
-/

namespace Pgkit

/-! ## String helpers modelling Python `str` methods -/

/-- The apostrophe character, written via its code point. -/
def squote : Char := Char.ofNat 39

/-- Characters stripped by Python `str.strip()` with no argument. -/
def pyIsSpace (c : Char) : Bool :=
  c = ' ' || c = '\t' || c = '\n' || c = '\r' || c = Char.ofNat 11 || c = Char.ofNat 12

/-- Python `str.strip()`: remove leading and trailing whitespace. -/
def pyStrip (s : String) : String :=
  ⟨((s.data.dropWhile pyIsSpace).reverse.dropWhile pyIsSpace).reverse⟩

/-- Python `sep.join(xs)`. -/
def pyJoin (sep : String) : List String → String
  | [] => ""
  | [x] => x
  | x :: xs => x ++ sep ++ pyJoin sep xs

/-- Helper for `splitLines`. -/
def splitLinesAux : List Char → List Char → List String
  | [], acc => [⟨acc.reverse⟩]
  | c :: cs, acc =>
    if c = '\n' then ⟨acc.reverse⟩ :: splitLinesAux cs []
    else splitLinesAux cs (c :: acc)

/-- Python `s.split("\n")`. -/
def splitLines (s : String) : List String := splitLinesAux s.data []

/-- Python `line.count("$$")`: number of non-overlapping occurrences of
the two-character dollar-dollar delimiter. -/
def countDD : List Char → Nat
  | '$' :: '$' :: rest => countDD rest + 1
  | _ :: rest => countDD rest
  | [] => 0

/-- Python `pat in s` (substring containment) on character lists. -/
def containsSub (pat : List Char) : List Char → Bool
  | [] => pat.isEmpty
  | c :: rest => pat.isPrefixOf (c :: rest) || containsSub pat rest

/-- Python `s.upper()` (ASCII behaviour, which covers the SQL identifiers
the dumper manipulates). -/
def pyUpper (s : String) : String := ⟨s.data.map Char.toUpper⟩

/-- Python `s.rstrip(';')`. -/
def rstripSemi (s : String) : String :=
  ⟨(s.data.reverse.dropWhile (· = ';')).reverse⟩

/-- Line-prefix test (`startsWith`) at the character-list level; used for line classification. -/
def startsWith (p l : String) : Bool := p.data.isPrefixOf l.data

/-! ## The statement splitter (`SqlExecutor._split_queries`) -/

/-- A line that is blank or a `--` line comment after stripping
(`stripped.startswith("--") or not stripped`). -/
def comment_or_blank (line : String) : Bool :=
  let s := pyStrip line
  "--".data.isPrefixOf s.data || s.data.isEmpty

/-- The `$$` toggle of `_split_queries`: if the line contains the
delimiter an odd number of times, flip the dollar-quote flag. -/
def toggle_dollar (in_dollar : Bool) (line : String) : Bool :=
  if countDD line.data ≠ 0 then
    if countDD line.data % 2 = 1 then !in_dollar else in_dollar
  else in_dollar

/-- Python `stripped.endswith(";")`. -/
def ends_with_semi (s : String) : Bool := s.data.getLast? = some ';'

/-- Every line of the buffered query is a comment or blank
(the `all(...)` generator inside `_split_queries`). -/
def all_comment_or_blank (q : String) : Bool := (splitLines q).all comment_or_blank

/-- Closing the current buffer: join with newlines, strip, and append to
the result unless empty or made of comments only. -/
def flush_query (queries current : List String) : List String :=
  let query := pyStrip (pyJoin "\n" current)
  if query.data.isEmpty then queries
  else if all_comment_or_blank query then queries
  else queries ++ [query]

/-- The line-by-line loop of `_split_queries`. -/
def split_loop : List String → List String → List String → Bool → List String
  | [], queries, current, _ =>
    if current.isEmpty then queries else flush_query queries current
  | line :: rest, queries, current, in_dollar =>
    if comment_or_blank line then
      split_loop rest queries (current ++ [line]) in_dollar
    else
      let d := toggle_dollar in_dollar line
      if d then
        split_loop rest queries (current ++ [line]) d
      else if ends_with_semi (pyStrip line) then
        split_loop rest (flush_query queries (current ++ [line])) [] d
      else
        split_loop rest queries (current ++ [line]) d

/-- Model of `SqlExecutor._split_queries`: split SQL text into statements at
semicolon-terminated lines, treating `$$` blocks as opaque. -/
def split_queries (sql : String) : List String :=
  split_loop (splitLines sql) [] [] false

/-! ## The value formatter (`SchemaDumper._format_value`) -/

/-- The Python value domain that `_format_value` handles: `None`, `bool`,
`int`, `float`, `bytes`, `list`, and everything else through `str`.
A float is carried as its canonical decimal text (Python `str(float)`),
which the formatter passes through unchanged. -/
inductive Value where
  | null : Value
  | bool (b : Bool) : Value
  | int (n : Int) : Value
  | float (decimalText : String) : Value
  | bytes (bs : List (Fin 256)) : Value
  | list (vs : List Value) : Value
  | str (s : String) : Value

/-- One lowercase hexadecimal digit. -/
def hexDigit (n : Nat) : Char :=
  if n < 10 then Char.ofNat (48 + n) else Char.ofNat (87 + n)

/-- Python `bytes.hex()`: two lowercase hex digits per byte, no separator. -/
def bytes_hex : List (Fin 256) → List Char
  | [] => []
  | b :: bs => hexDigit (b.val / 16) :: hexDigit (b.val % 16) :: bytes_hex bs

/-- Python `text.replace("'", "''")` at the character level. -/
def escape_quotes : List Char → List Char
  | [] => []
  | c :: cs =>
    if c = squote then squote :: squote :: escape_quotes cs
    else c :: escape_quotes cs

mutual

/-- Model of `SchemaDumper._format_value`: render one Python cell value as a SQL
literal.  Branch order follows the source: `None`, `bool`, numeric,
`bytes`, `list`, then the string fallback. -/
def format_value : Value → String
  | .null => "NULL"
  | .bool b => if b then "TRUE" else "FALSE"
  | .int n => toString n
  | .float r => r
  | .bytes bs => "E'\\\\x" ++ (⟨bytes_hex bs⟩ : String) ++ "'"
  | .list vs => "ARRAY[" ++ pyJoin ", " (format_list vs) ++ "]"
  | .str s => "'" ++ (⟨escape_quotes s.data⟩ : String) ++ "'"

/-- The recursive rendering of list elements (`", ".join(...)` operand). -/
def format_list : List Value → List String
  | [] => []
  | v :: vs => format_value v :: format_list vs

end

/-! Verification-side decoders used to state that the hex and quote
escapes are genuinely invertible. -/

/-- Decode one lowercase hex digit. -/
def hexDigitVal (c : Char) : Option Nat :=
  if 48 ≤ c.toNat ∧ c.toNat ≤ 57 then some (c.toNat - 48)
  else if 97 ≤ c.toNat ∧ c.toNat ≤ 102 then some (c.toNat - 87)
  else none

/-- Decode a lowercase hex string back into bytes. -/
def hex_decode : List Char → Option (List (Fin 256))
  | [] => some []
  | [_] => none
  | c1 :: c2 :: cs =>
    match hexDigitVal c1, hexDigitVal c2, hex_decode cs with
    | some h, some l, some bs =>
      if hh : h * 16 + l < 256 then some (⟨h * 16 + l, hh⟩ :: bs) else none
    | _, _, _ => none

/-- Undo `escape_quotes`: every apostrophe must come doubled. -/
def unescape_quotes : List Char → Option (List Char)
  | [] => some []
  | c :: cs =>
    if c = squote then
      match cs with
      | c2 :: cs2 =>
        if c2 = squote then (unescape_quotes cs2).map (squote :: ·) else none
      | [] => none
    else (unescape_quotes cs).map (c :: ·)

/-- Undo the string branch of `format_value`: strip the outer single
quotes and collapse doubled apostrophes. -/
def unquote_literal (s : String) : Option String :=
  match s.data with
  | [] => none
  | c :: cs =>
    if c = squote then
      match cs.getLast? with
      | some d =>
        if d = squote then (unescape_quotes cs.dropLast).map (fun r => (⟨r⟩ : String))
        else none
      | none => none
    else none

/-! ## The execution engine (`SqlExecutor.execute_files`)

The psycopg2 connection is modelled as an explicit state: the autocommit
flag, the list of statement texts whose effects are committed, the list
executed but still pending in the open transaction, and whether `commit()`
succeeds (a psycopg2 `commit` can raise, e.g. on a lost connection; this
is the one connection operation modelled as fallible).  `cursor.execute`
success is decided by the database behaviour `PgDb.execOk`; a failing
statement raises and is caught by the engine, matching the source.  An
exception escaping the engine is an `Except.error` carrying the connection
state at the moment of escape. -/

/-- The database behaviour: which statement texts execute successfully. -/
structure PgDb where
  execOk : String → Bool

/-- The connection state. -/
structure Conn where
  autocommit : Bool
  committed : List String
  pending : List String
  commitOk : Bool
deriving DecidableEq, Repr

/-- Model of `conn.rollback()`: discard the pending transaction. -/
def Conn.rollback (c : Conn) : Conn := { c with pending := [] }

/-- Model of `conn.commit()`: publish the pending statements, or raise. -/
def Conn.commit (c : Conn) : Except Conn Conn :=
  if c.commitOk then .ok { c with committed := c.committed ++ c.pending, pending := [] }
  else .error c

/-- A SQL file as the engine sees it: `_read_file` either raises `IOError`
or yields the file's text. -/
inductive SqlFile where
  | unreadable : SqlFile
  | readable (sql : String) : SqlFile
deriving DecidableEq, Repr

/-- The `ExecutionResult` counters (elapsed wall-clock time is real time and
is not modelled). -/
structure ExecutionResult where
  total_files : Nat
  success_files : Nat
  failed_files : Nat
  total_queries : Nat
  success_count : Nat
  error_count : Nat
deriving DecidableEq, Repr

/-- The statement loop of `_execute_single_transaction`: execute each
query; on the first failure increment `error_count` and `failed_files`,
roll back, overwrite `failed_files` with `total_files - success_files`,
and report early exit. -/
def single_tx_stmts (db : PgDb) : List String → Conn → ExecutionResult →
    Conn × ExecutionResult × Bool
  | [], c, r => (c, r, false)
  | q :: qs, c, r =>
    if db.execOk q then
      single_tx_stmts db qs { c with pending := c.pending ++ [q] }
        { r with success_count := r.success_count + 1 }
    else
      let r := { r with error_count := r.error_count + 1,
                        failed_files := r.failed_files + 1 }
      let c := c.rollback
      let r := { r with failed_files := r.total_files - r.success_files }
      (c, r, true)

/-- The file loop of `_execute_single_transaction`.  The boolean reports
an early `return` (after a statement or read failure). -/
def single_tx_loop (db : PgDb) : List SqlFile → Conn → ExecutionResult →
    Conn × ExecutionResult × Bool
  | [], c, r => (c, r, false)
  | f :: rest, c, r =>
    match f with
    | .unreadable =>
      (c.rollback, { r with failed_files := r.failed_files + 1 }, true)
    | .readable sql =>
      let qs := split_queries sql
      let r := { r with total_queries := r.total_queries + qs.length }
      match single_tx_stmts db qs c r with
      | (c2, r2, true) => (c2, r2, true)
      | (c2, r2, false) =>
        single_tx_loop db rest c2 { r2 with success_files := r2.success_files + 1 }

/-- Model of `_execute_single_transaction`: save autocommit, force it off, run the
file loop, commit on full success, and restore autocommit in a `finally`
that also covers a commit exception. -/
def execute_single_transaction (db : PgDb) (files : List SqlFile) (c : Conn)
    (r : ExecutionResult) : Except Conn (Conn × ExecutionResult) :=
  let prev := c.autocommit
  let c := { c with autocommit := false }
  match single_tx_loop db files c r with
  | (c2, r2, true) => .ok ({ c2 with autocommit := prev }, r2)
  | (c2, r2, false) =>
    match c2.commit with
    | .ok c3 => .ok ({ c3 with autocommit := prev }, r2)
    | .error c3 => .error { c3 with autocommit := prev }

/-- The statement loop of `_execute_per_file`: on the first failure
increment `error_count`, roll back, and break out of the file. -/
def per_file_stmts (db : PgDb) : List String → Conn → ExecutionResult →
    Conn × ExecutionResult × Bool
  | [], c, r => (c, r, false)
  | q :: qs, c, r =>
    if db.execOk q then
      per_file_stmts db qs { c with pending := c.pending ++ [q] }
        { r with success_count := r.success_count + 1 }
    else
      (c.rollback, { r with error_count := r.error_count + 1 }, true)

/-- The file loop of `_execute_per_file`.  `commit()` sits inside a `try`
that only catches `IOError`, so a commit failure escapes the whole
function (`Except.error`). -/
def per_file_loop (db : PgDb) : List SqlFile → Conn → ExecutionResult →
    Except Conn (Conn × ExecutionResult)
  | [], c, r => .ok (c, r)
  | f :: rest, c, r =>
    match f with
    | .unreadable =>
      per_file_loop db rest c { r with failed_files := r.failed_files + 1 }
    | .readable sql =>
      let qs := split_queries sql
      let r := { r with total_queries := r.total_queries + qs.length }
      let c := { c with autocommit := false }
      match per_file_stmts db qs c r with
      | (c2, r2, true) =>
        per_file_loop db rest c2 { r2 with failed_files := r2.failed_files + 1 }
      | (c2, r2, false) =>
        match c2.commit with
        | .ok c3 => per_file_loop db rest c3 { r2 with success_files := r2.success_files + 1 }
        | .error c3 => .error c3

/-- Model of `_execute_per_file`: autocommit is restored after the loop, with no
`finally`, so an escaping exception skips the restore. -/
def execute_per_file (db : PgDb) (files : List SqlFile) (c : Conn)
    (r : ExecutionResult) : Except Conn (Conn × ExecutionResult) :=
  let prev := c.autocommit
  match per_file_loop db files c r with
  | .ok (c2, r2) => .ok ({ c2 with autocommit := prev }, r2)
  | .error c2 => .error c2

/-- Model of `SqlExecutor.execute_files`: build a fresh result with
`total_files = len(file_paths)` and dispatch on the transaction mode. -/
def execute_files (db : PgDb) (files : List SqlFile) (single_transaction : Bool)
    (c : Conn) : Except Conn (Conn × ExecutionResult) :=
  let r : ExecutionResult :=
    { total_files := files.length, success_files := 0, failed_files := 0,
      total_queries := 0, success_count := 0, error_count := 0 }
  if single_transaction then execute_single_transaction db files c r
  else execute_per_file db files c r

/-! Observation helpers and per-file classification functions used to
state properties of the engine. -/

/-- The connection state visible after a call, whether it returned or an
exception escaped. -/
def conn_after : Except Conn (Conn × ExecutionResult) → Conn
  | .ok (c, _) => c
  | .error c => c

/-- The result record, if the call returned normally. -/
def result_of : Except Conn (Conn × ExecutionResult) → Option ExecutionResult
  | .ok (_, r) => some r
  | .error _ => none

/-- The statements a file contributes (`[]` for an unreadable file, which
fails before splitting). -/
def file_queries : SqlFile → List String
  | .unreadable => []
  | .readable sql => split_queries sql

/-- A file that reads and whose statements all execute successfully. -/
def file_all_ok (db : PgDb) : SqlFile → Bool
  | .unreadable => false
  | .readable sql => (split_queries sql).all db.execOk

/-- A readable file containing a failing statement. -/
def file_stmt_error (db : PgDb) : SqlFile → Bool
  | .unreadable => false
  | .readable sql => !(split_queries sql).all db.execOk

/-- A file that errors: unreadable, or containing a failing statement. -/
def file_failed (db : PgDb) : SqlFile → Bool
  | .unreadable => true
  | .readable sql => !(split_queries sql).all db.execOk

/-- Statements of a file that execute before the first failure. -/
def file_ok_count (db : PgDb) : SqlFile → Nat
  | .unreadable => 0
  | .readable sql => ((split_queries sql).takeWhile db.execOk).length

/-- All statements of a file list, in order. -/
def flat_queries (files : List SqlFile) : List String :=
  (files.map file_queries).flatten

/-- Total number of parsed statements across a file list. -/
def query_total (files : List SqlFile) : Nat :=
  (files.map (fun f => (file_queries f).length)).sum

/-- Total number of successfully executed statements across a file list. -/
def ok_total (db : PgDb) (files : List SqlFile) : Nat :=
  (files.map (file_ok_count db)).sum

/-! ## The schema dumper (`SchemaDumper`)

The dumper issues read-only catalog queries and assembles DDL text.  The
catalog is modelled as a record of query results: each field holds exactly
the rows the corresponding SQL query of the source returns (already in the
query's ORDER BY order).  The `WHERE` clauses that the index query applies
(`indexdef NOT LIKE '%UNIQUE%'`, `indexname NOT IN (pk/unique constraint
names)`) are part of the source's logic and are therefore translated in
`dump_indexes` itself, over the raw `pg_indexes` rows.  Log callbacks do
not influence the produced text and are omitted.  `datetime.now()` is real
time and enters the model as the `now` parameter. -/

/-- A row of the column query of `_get_columns`. -/
structure ColumnRow where
  name : String
  type : String
  not_null : Bool
  default : Option String
deriving DecidableEq, Repr

/-- A named column-list constraint (PRIMARY KEY or UNIQUE). -/
structure KeyCols where
  name : String
  columns : List String
deriving DecidableEq, Repr

/-- A CHECK constraint row: name and raw `pg_get_constraintdef` text. -/
structure CheckRow where
  name : String
  definition : String
deriving DecidableEq, Repr

/-- A FOREIGN KEY row: constraint name, owning table, definition text. -/
structure FkRow where
  conname : String
  table_name : String
  definition : String
deriving DecidableEq, Repr

/-- A `pg_indexes` row. -/
structure IndexRow where
  indexname : String
  indexdef : String
deriving DecidableEq, Repr

/-- A `pg_views` row. -/
structure ViewRow where
  viewname : String
  definition : String
deriving DecidableEq, Repr

/-- An enum type with its ordered labels. -/
structure EnumRow where
  typname : String
  labels : List String
deriving DecidableEq, Repr

/-- A `pg_sequence` row. -/
structure SeqRow where
  name : String
  start : Int
  increment : Int
  min_val : Int
  max_val : Int
  cycle : Bool
deriving DecidableEq, Repr

/-- The catalog contents the dumper queries, per schema (and per table
where the source queries take a table parameter). -/
structure Catalog where
  user_schemas : List String
  all_tables : String → List String
  extensions : List String
  enums : String → List EnumRow
  sequences : String → List SeqRow
  columns : String → String → List ColumnRow
  primary_key : String → String → Option KeyCols
  unique_constraints : String → String → List KeyCols
  check_constraints_raw : String → String → List CheckRow
  foreign_keys : String → List FkRow
  pg_indexes : String → List IndexRow
  pu_con_names : String → List String
  pg_views : String → List ViewRow
  data_cols : String → String → List String
  data_rows : String → String → List (List Value)

/-- Double-quote an identifier, as the source's f-strings do. -/
def quoteId (s : String) : String := "\"" ++ (s ++ "\"")

/-- The recurring `-- ===` section banner followed by a blank line. -/
def section_header (title : String) : List String :=
  ["-- ===========================================",
   "-- " ++ title,
   "-- ===========================================",
   ""]

/-- Model of `_dump_extensions`. -/
def dump_extensions (cat : Catalog) : List String :=
  if cat.extensions.isEmpty then []
  else
    section_header "EXTENSIONS" ++
    cat.extensions.map (fun e => "CREATE EXTENSION IF NOT EXISTS " ++ (quoteId e ++ ";")) ++
    [""]

/-- Model of `_dump_enums`. -/
def dump_enums (cat : Catalog) (schema : String) : List String :=
  let rows := cat.enums schema
  if rows.isEmpty then []
  else
    section_header "ENUM TYPES" ++
    rows.map (fun r =>
      "CREATE TYPE " ++ (quoteId schema ++ "." ++ quoteId r.typname ++ " AS ENUM (" ++
        pyJoin ", " (r.labels.map (fun l => "'" ++ (l ++ "'"))) ++ ");")) ++
    [""]

/-- Model of `_dump_sequences` (the `tables` parameter is accepted and unused, as
in the source). -/
def dump_sequences (cat : Catalog) (schema : String) (_tables : List String) : List String :=
  let rows := cat.sequences schema
  if rows.isEmpty then []
  else
    section_header "SEQUENCES" ++
    rows.map (fun s =>
      "CREATE SEQUENCE IF NOT EXISTS " ++ (quoteId schema ++ "." ++ quoteId s.name ++
        " START " ++ toString s.start ++ " INCREMENT " ++ toString s.increment ++
        " MINVALUE " ++ toString s.min_val ++ " MAXVALUE " ++ toString s.max_val ++
        " " ++ (if s.cycle then "CYCLE" else "NO CYCLE") ++ ";")) ++
    [""]

/-- The CHECK-prefix stripping of `_get_check_constraints`. -/
def strip_check (definition : String) : String :=
  if "CHECK ".data.isPrefixOf (pyUpper definition).data then
    let d := pyStrip ⟨definition.data.drop 6⟩
    if (match d.data with | c :: _ => c = '(' | [] => false) &&
       (d.data.getLast? == some ')') then
      ⟨(d.data.drop 1).dropLast⟩
    else d
  else definition

/-- Model of `_format_column`: `"name" type [DEFAULT expr] [NOT NULL]`. -/
def format_column (col : ColumnRow) : String :=
  pyJoin " " ([quoteId col.name, col.type] ++
    (match col.default with | some d => ["DEFAULT " ++ d] | none => []) ++
    (if col.not_null then ["NOT NULL"] else []))

/-- Model of `_dump_table`: the four lines `-- Table:`, `CREATE TABLE ... (`, the
comma-joined column/constraint block, and `);`. -/
def dump_table (cat : Catalog) (schema tbl : String) : List String :=
  let cols := cat.columns schema tbl
  let pk := cat.primary_key schema tbl
  let uqs := cat.unique_constraints schema tbl
  let cks := (cat.check_constraints_raw schema tbl).map
    (fun ck => CheckRow.mk ck.name (strip_check ck.definition))
  let col_lines :=
    cols.map (fun c => "    " ++ format_column c) ++
    (match pk with
     | some p => ["    " ++ ("CONSTRAINT " ++ quoteId p.name ++ " PRIMARY KEY (" ++
         pyJoin ", " (p.columns.map quoteId) ++ ")")]
     | none => []) ++
    uqs.map (fun u => "    " ++ ("CONSTRAINT " ++ quoteId u.name ++ " UNIQUE (" ++
      pyJoin ", " (u.columns.map quoteId) ++ ")")) ++
    cks.map (fun k => "    " ++ ("CONSTRAINT " ++ quoteId k.name ++ " CHECK (" ++
      k.definition ++ ")"))
  ["-- Table: " ++ (schema ++ "." ++ tbl),
   "CREATE TABLE IF NOT EXISTS " ++ (quoteId schema ++ "." ++ quoteId tbl ++ " ("),
   pyJoin ",\n" col_lines,
   ");"]

/-- Model of `_dump_foreign_keys`: emit the FKs of tables in the target set as
`ALTER TABLE ... ADD CONSTRAINT`; with an empty (falsy) table list the
source skips the ownership filter. -/
def dump_foreign_keys (cat : Catalog) (schema : String) (tables : List String) : List String :=
  let rows := cat.foreign_keys schema
  let fk_rows := if tables.isEmpty then rows
    else rows.filter (fun r => tables.contains r.table_name)
  if fk_rows.isEmpty then []
  else
    section_header "FOREIGN KEYS" ++
    fk_rows.map (fun r =>
      "ALTER TABLE " ++ (quoteId schema ++ "." ++ quoteId r.table_name ++
        " ADD CONSTRAINT " ++ quoteId r.conname ++ " " ++ r.definition ++ ";")) ++
    [""]

/-- Model of `_index_belongs_to`: match the table token after ` ON `, quoted
against the raw definition or unquoted against its uppercased form (the
unquoted probe keeps the table name's original case, as in the source). -/
def index_belongs_to (indexdef : String) (tables : List String) : Bool :=
  let upper := pyUpper indexdef
  tables.any (fun t =>
    containsSub (" ON " ++ quoteId t).data indexdef.data ||
    containsSub (" ON " ++ t).data upper.data)

/-- Rendering of the index section from its final row list. -/
def render_index_section (rows : List IndexRow) : List String :=
  if rows.isEmpty then []
  else
    section_header "INDEXES" ++
    rows.map (fun r => r.indexdef ++ ";") ++
    [""]

/-- Model of `_dump_indexes`: the SQL `WHERE` filter (no `UNIQUE` in the
definition, name not among PRIMARY KEY/UNIQUE constraint names) followed
by the Python ownership filter, which is skipped when the table list is
empty (falsy). -/
def dump_indexes (cat : Catalog) (schema : String) (tables : List String) : List String :=
  let rows := (cat.pg_indexes schema).filter (fun r =>
    !(containsSub "UNIQUE".data r.indexdef.data) &&
    !((cat.pu_con_names schema).contains r.indexname))
  let idx_rows := if tables.isEmpty then rows
    else rows.filter (fun r => index_belongs_to r.indexdef tables)
  render_index_section idx_rows

/-- The body line of a view: its definition with trailing semicolons
normalized to exactly one. -/
def view_body (v : ViewRow) : String := rstripSemi v.definition ++ ";"

/-- Model of `_dump_views`. -/
def dump_views (cat : Catalog) (schema : String) : List String :=
  let rows := cat.pg_views schema
  if rows.isEmpty then []
  else
    section_header "VIEWS" ++
    (rows.map (fun v =>
      ["CREATE OR REPLACE VIEW " ++ (quoteId schema ++ "." ++ quoteId v.viewname ++ " AS"),
       view_body v,
       ""])).flatten

/-- Model of `_dump_data`: one INSERT line per row (batching only controls fetch
size, not the emitted text). -/
def dump_data (cat : Catalog) (schema tbl : String) : List String :=
  let col_names := cat.data_cols schema tbl
  if col_names.isEmpty then []
  else
    let cols_str := pyJoin ", " (col_names.map quoteId)
    (cat.data_rows schema tbl).map (fun row =>
      "INSERT INTO " ++ (quoteId schema ++ "." ++ quoteId tbl ++ " (" ++ cols_str ++
        ") VALUES (" ++ pyJoin ", " (row.map format_value) ++ ");"))

/-- The line list `SchemaDumper.dump` joins into its output. -/
def dump_lines (cat : Catalog) (now : String) (tables : Option (List String))
    (include_data : Bool) (schema : String)
    (skip_header skip_extensions : Bool) : List String :=
  let header := if skip_header then []
    else ["-- PostgreSQL Schema Dump", "-- Generated: " ++ now,
          "-- Schema: " ++ schema, ""]
  let target_tables := match tables with
    | none => cat.all_tables schema
    | some ts => ts
  let ext := if skip_extensions then [] else dump_extensions cat
  let tbls := (target_tables.map (fun t => dump_table cat schema t ++ [""])).flatten
  let data_section := if include_data then
      ["", "-- ===========================================", "-- DATA",
       "-- ===========================================", ""] ++
      (target_tables.map (fun t => dump_data cat schema t)).flatten
    else []
  header ++ ext ++ dump_enums cat schema ++ dump_sequences cat schema target_tables ++
    tbls ++
    (dump_foreign_keys cat schema target_tables ++ dump_indexes cat schema target_tables ++
      dump_views cat schema ++ data_section)

/-- Model of `SchemaDumper.dump`: the joined dump text of one schema. -/
def dump (cat : Catalog) (now : String) (tables : Option (List String))
    (include_data : Bool) (schema : String)
    (skip_header skip_extensions : Bool) : String :=
  pyJoin "\n" (dump_lines cat now tables include_data schema skip_header skip_extensions)

/-- Model of `SchemaDumper.dump_database`: header, extensions once, then each user
schema's dump appended as a single text block (with a `CREATE SCHEMA`
statement for non-public schemas). -/
def dump_database (cat : Catalog) (now : String) (include_data : Bool) : String :=
  let schemas := cat.user_schemas
  let head := ["-- PostgreSQL Full Database Dump", "-- Generated: " ++ now,
               "-- Schemas: " ++ pyJoin ", " schemas, ""]
  let lines := head ++ dump_extensions cat ++
    (schemas.map (fun schema =>
      let schema_sql := dump cat now none include_data schema true true
      if (pyStrip schema_sql).data.isEmpty then []
      else
        ["-- ###########################################################",
         "-- SCHEMA: " ++ schema,
         "-- ###########################################################",
         ""] ++
        (if schema == "public" then []
         else ["CREATE SCHEMA IF NOT EXISTS " ++ (quoteId schema ++ ";"), ""]) ++
        [schema_sql, ""])).flatten
  pyJoin "\n" lines

/-- Line classifications for the dump-ordering claims. -/
def is_create_table_line (l : String) : Bool := Pgkit.startsWith "CREATE TABLE" l

/-- An `ALTER TABLE ... FOREIGN KEY` statement line. -/
def is_fk_alter_line (l : String) : Bool :=
  Pgkit.startsWith "ALTER TABLE" l && containsSub "FOREIGN KEY".data l.data

/-- The claim-side characterization of which indexes the index section
emits: not backing a PRIMARY KEY/UNIQUE constraint, and belonging to a
table of the filtered set. -/
def index_emitted_spec (cat : Catalog) (schema : String) (tables : List String)
    (r : IndexRow) : Bool :=
  (!(containsSub "UNIQUE".data r.indexdef.data) &&
   !((cat.pu_con_names schema).contains r.indexname)) &&
  index_belongs_to r.indexdef tables

/-! ## Concrete catalogs for counterexamples and witnesses, the
verification engine (`VerificationService`), and the file reader
(`SqlExecutor._read_file`) -/

/-- A one-index catalog used to probe the index ownership filter. -/
def cat5 : Catalog :=
  { user_schemas := ["public"]
    all_tables := fun _ => []
    extensions := []
    enums := fun _ => []
    sequences := fun _ => []
    columns := fun _ _ => []
    primary_key := fun _ _ => none
    unique_constraints := fun _ _ => []
    check_constraints_raw := fun _ _ => []
    foreign_keys := fun _ => []
    pg_indexes := fun s =>
      if s = "public" then [⟨"i1", "CREATE INDEX i1 ON public.t USING btree (c)"⟩] else []
    pu_con_names := fun _ => []
    pg_views := fun _ => []
    data_cols := fun _ _ => []
    data_rows := fun _ _ => [] }

/-- A two-schema catalog: `public.a` carries a foreign key that
references `s2.b`, whose table is dumped in a later schema section. -/
def cat3 : Catalog :=
  { user_schemas := ["public", "s2"]
    all_tables := fun s => if s = "public" then ["a"] else if s = "s2" then ["b"] else []
    extensions := []
    enums := fun _ => []
    sequences := fun _ => []
    columns := fun _ _ => [⟨"id", "integer", false, none⟩]
    primary_key := fun _ _ => none
    unique_constraints := fun _ _ => []
    check_constraints_raw := fun _ _ => []
    foreign_keys := fun s =>
      if s = "public" then [⟨"fk1", "a", "FOREIGN KEY (id) REFERENCES s2.b(id)"⟩] else []
    pg_indexes := fun _ => []
    pu_con_names := fun _ => []
    pg_views := fun _ => []
    data_cols := fun _ _ => []
    data_rows := fun _ _ => [] }

/-- The `VerificationResult` record of the verification service
(`table_rows` keeps the per-table counts in query order; a failed lookup
is recorded as the -1 sentinel). -/
structure VerificationResult where
  table_count : Nat
  table_rows : List (String × Int)
  sequence_count : Nat
  index_count : Nat
  view_count : Nat
  errors : List String
deriving DecidableEq, Repr

/-- The behaviour of the verification queries against the connection for
the requested schema: each field is the outcome of the corresponding
catalog query, `Except.error` carrying the exception message. -/
structure VerifyEnv where
  countTables : Except String Nat
  listTables : Except String (List String)
  rowCount : String → Except String Nat
  countSequences : Except String Nat
  countIndexes : Except String Nat
  countViews : Except String Nat

/-- Model of `VerificationService._count_rows_per_table`: one count per table, -1
recorded when the lookup raises, and the loop always continues. -/
def count_rows_per_table (env : VerifyEnv) (tables : List String) : List (String × Int) :=
  tables.map (fun t =>
    match env.rowCount t with
    | .ok n => (t, (n : Int))
    | .error _ => (t, -1))

/-- Model of `VerificationService.verify`: the sequential verification steps inside
one `try` block; the first escaping exception appends its message to
`errors` and the partially-filled record is returned. -/
def verify (env : VerifyEnv) : VerificationResult :=
  let r : VerificationResult :=
    { table_count := 0, table_rows := [], sequence_count := 0,
      index_count := 0, view_count := 0, errors := [] }
  match env.countTables with
  | .error e => { r with errors := r.errors ++ [e] }
  | .ok n =>
    let r := { r with table_count := n }
    match env.listTables with
    | .error e => { r with errors := r.errors ++ [e] }
    | .ok ts =>
      let r := { r with table_rows := count_rows_per_table env ts }
      match env.countSequences with
      | .error e => { r with errors := r.errors ++ [e] }
      | .ok ns =>
        let r := { r with sequence_count := ns }
        match env.countIndexes with
        | .error e => { r with errors := r.errors ++ [e] }
        | .ok ni =>
          let r := { r with index_count := ni }
          match env.countViews with
          | .error e => { r with errors := r.errors ++ [e] }
          | .ok nv => { r with view_count := nv }

/-- The value `verify` records for one table: the real count, or -1. -/
def row_val (env : VerifyEnv) (t : String) : Int :=
  match env.rowCount t with
  | .ok n => (n : Int)
  | .error _ => -1

/-- The message of the first failing query after the row-count loop, as a
singleton list; empty when they all succeed. -/
def later_errors (env : VerifyEnv) : List String :=
  match env.countSequences with
  | .error e => [e]
  | .ok _ =>
    match env.countIndexes with
    | .error e => [e]
    | .ok _ =>
      match env.countViews with
      | .error e => [e]
      | .ok _ => []

/-- How `_read_file` can fail: an OS-level error from `open`/`read` (not
caught by the decode chain), or the `IOError` raised when every decode
attempt fails. -/
inductive ReadError where
  | osError : ReadError
  | encodingError : ReadError
deriving DecidableEq, Repr

/-- Latin-1 decoding: byte `b` maps to code point `b`, so it is total on
byte sequences and never raises `UnicodeDecodeError`. -/
def latin1_decode (bs : List (Fin 256)) : Option String :=
  some ⟨bs.map (fun b => Char.ofNat b.val)⟩

/-- Model of `SqlExecutor._read_file`: try UTF-8, then CP949, then Latin-1; raise
the encoding `IOError` only if all three fail.  The UTF-8 and CP949
decoders are arbitrary partial functions; Latin-1 is total. -/
def read_file (utf8_decode cp949_decode : List (Fin 256) → Option String)
    (file : Except Unit (List (Fin 256))) : Except ReadError String :=
  match file with
  | .error _ => .error .osError
  | .ok bs =>
    match utf8_decode bs with
    | some s => .ok s
    | none =>
      match cp949_decode bs with
      | some s => .ok s
      | none =>
        match latin1_decode bs with
        | some s => .ok s
        | none => .error .encodingError

/-- A concrete database behaviour for witnesses: every statement succeeds
except the text `BAD;`. -/
def dbW : PgDb := ⟨fun q => !(q == "BAD;")⟩

/-! ## Lemmas about the value formatter's escapes -/

theorem unescape_escape (cs : List Char) :
    unescape_quotes (escape_quotes cs) = some cs := by
  induction cs with
  | nil => rfl
  | cons c cs ih =>
    by_cases h : c = squote
    · subst h; simp [escape_quotes, unescape_quotes, ih]
    · simp only [escape_quotes, if_neg h]
      rw [unescape_quotes.eq_def]
      simp [h, ih]

theorem hexDigitVal_hexDigit : ∀ i : Fin 16, hexDigitVal (hexDigit i.val) = some i.val := by
  decide

theorem hex_decode_bytes_hex (bs : List (Fin 256)) :
    hex_decode (bytes_hex bs) = some bs := by
  induction bs with
  | nil => rfl
  | cons b bs ih =>
    have h1 : hexDigitVal (hexDigit (b.val / 16)) = some (b.val / 16) :=
      hexDigitVal_hexDigit ⟨b.val / 16, by omega⟩
    have h2 : hexDigitVal (hexDigit (b.val % 16)) = some (b.val % 16) :=
      hexDigitVal_hexDigit ⟨b.val % 16, by omega⟩
    have hb : b.val / 16 * 16 + b.val % 16 = b.val := by omega
    simp [bytes_hex, hex_decode, h1, h2, ih, hb, b.isLt]

theorem hexDigit_lower :
    ∀ i : Fin 16, ("0123456789abcdef".data.contains (hexDigit i.val)) = true := by
  decide

theorem bytes_hex_lower (bs : List (Fin 256)) :
    (bytes_hex bs).all (fun c => "0123456789abcdef".data.contains c) = true := by
  induction bs with
  | nil => rfl
  | cons b bs ih =>
    have l1 := hexDigit_lower ⟨b.val / 16, by omega⟩
    have l2 := hexDigit_lower ⟨b.val % 16, by omega⟩
    simp only [bytes_hex, List.all_cons, Bool.and_eq_true]
    exact ⟨l1, l2, ih⟩

theorem unquote_format_str (s : String) :
    unquote_literal (format_value (.str s)) = some s := by
  have hq : ("'" : String).data = [squote] := by decide
  have hdata : (format_value (.str s)).data =
      squote :: (escape_quotes s.data ++ [squote]) := by
    show (("'" ++ (⟨escape_quotes s.data⟩ : String) ++ "'")).data = _
    rw [String.data_append, String.data_append, hq]
    rfl
  simp [unquote_literal, hdata, List.getLast?_concat, List.dropLast_concat, unescape_escape]

/-- C4 (amended): the literal rendering of `_format_value`.  `None` maps
to `NULL`, booleans to `TRUE`/`FALSE`, integers to their decimal text,
floats pass their decimal text through, a bytes payload becomes
`E'\\x<lowercase-hex>'` with a doubled backslash (so byte 0xAB renders as
the eight characters `E'\\xab'`), the hex encoding is invertible and
lowercase, lists render as `ARRAY[...]` recursively, and any other value
is single-quoted with embedded apostrophes doubled, invertibly. -/
theorem format_value_rendering :
    format_value .null = "NULL" ∧
    format_value (.bool true) = "TRUE" ∧
    format_value (.bool false) = "FALSE" ∧
    (∀ n : Int, format_value (.int n) = toString n) ∧
    (∀ r : String, format_value (.float r) = r) ∧
    (∀ bs : List (Fin 256),
       format_value (.bytes bs) = "E'\\\\x" ++ (⟨bytes_hex bs⟩ : String) ++ "'" ∧
       hex_decode (bytes_hex bs) = some bs ∧
       (bytes_hex bs).all (fun c => "0123456789abcdef".data.contains c) = true) ∧
    format_value (.bytes [(171 : Fin 256)]) = "E'\\\\xab'" ∧
    (∀ vs : List Value,
       format_value (.list vs) = "ARRAY[" ++ pyJoin ", " (format_list vs) ++ "]") ∧
    format_value (.list [.int 1, .str "a"]) = "ARRAY[1, 'a']" ∧
    (∀ s : String, unquote_literal (format_value (.str s)) = some s) :=
  ⟨rfl, rfl, rfl, fun _ => rfl, fun _ => rfl,
   fun bs => ⟨rfl, hex_decode_bytes_hex bs, bytes_hex_lower bs⟩,
   by decide, fun _ => rfl, by decide, unquote_format_str⟩

/-- Counterexample for C4 as frozen: the claim renders byte 0xAB as the
seven characters `E'\xab'` (single backslash), but the code emits a
doubled backslash: `E'\\xab'`, eight characters. -/
theorem format_value_bytes_backslash_cex :
    format_value (.bytes [(171 : Fin 256)]) = "E'\\\\xab'" ∧
    format_value (.bytes [(171 : Fin 256)]) ≠ "E'\\xab'" := by
  exact ⟨by decide, by decide⟩

/-! ## Theorems about the statement splitter -/

/-- C2: a trailing statement terminator is a boundary only while the
dollar-quote flag is false.  A comment or blank line is buffered without
closing a statement; a non-comment line whose post-toggle flag is true is
likewise buffered without closing a statement; and the spec's dollar-quoted
function example splits into exactly one statement. -/
theorem split_queries_dollar_block_no_boundary :
    (∀ (rest queries current : List String) (in_dollar : Bool) (line : String),
       comment_or_blank line = true →
       split_loop (line :: rest) queries current in_dollar =
         split_loop rest queries (current ++ [line]) in_dollar) ∧
    (∀ (rest queries current : List String) (in_dollar : Bool) (line : String),
       comment_or_blank line = false →
       toggle_dollar in_dollar line = true →
       split_loop (line :: rest) queries current in_dollar =
         split_loop rest queries (current ++ [line]) (toggle_dollar in_dollar line)) ∧
    split_queries "CREATE FUNCTION f() RETURNS int AS $$\n BEGIN RETURN 1; END;\n$$ LANGUAGE plpgsql;" =
      ["CREATE FUNCTION f() RETURNS int AS $$\n BEGIN RETURN 1; END;\n$$ LANGUAGE plpgsql;"] := by
  refine ⟨?_, ?_, by decide⟩
  · intro rest queries current in_dollar line h
    simp [split_loop, h]
  · intro rest queries current in_dollar line h1 h2
    simp [split_loop, h1, h2]

/-- Witness for C2 at a concrete input: inside an open `$$` block
(flag true, no delimiter on the line) a line ending in `;` is buffered,
not treated as a statement boundary. -/
theorem split_queries_dollar_block_no_boundary_witness :
    comment_or_blank " RETURN 1;" = false ∧
    toggle_dollar true " RETURN 1;" = true ∧
    split_loop (" RETURN 1;" :: ["$$;"]) [] ["AS $$"] true =
      split_loop ["$$;"] [] (["AS $$"] ++ [" RETURN 1;"]) (toggle_dollar true " RETURN 1;") :=
  ⟨by decide, by decide,
   split_queries_dollar_block_no_boundary.2.1 ["$$;"] [] ["AS $$"] true " RETURN 1;"
     (by decide) (by decide)⟩

end Pgkit

namespace Pgkit

theorem single_tx_stmts_spec (db : PgDb) :
    ∀ (qs : List String) (c : Conn) (r : ExecutionResult),
    single_tx_stmts db qs c r =
      if qs.all db.execOk then
        ({ c with pending := c.pending ++ qs },
         { r with success_count := r.success_count + qs.length }, false)
      else
        ({ c with pending := [] },
         { r with success_count := r.success_count + (qs.takeWhile db.execOk).length,
                  error_count := r.error_count + 1,
                  failed_files := r.total_files - r.success_files }, true) := by
  intro qs
  induction qs with
  | nil => intro c r; simp [single_tx_stmts]
  | cons q qs ih =>
    intro c r
    cases hq : db.execOk q with
    | true =>
      rw [single_tx_stmts, if_pos hq, ih]
      simp only [List.all_cons, hq, Bool.true_and, List.takeWhile_cons, if_pos hq]
      split
      · simp [List.append_assoc]
        omega
      · simp
        omega
    | false =>
      rw [single_tx_stmts, if_neg (by simp [hq])]
      simp [List.all_cons, hq, List.takeWhile_cons, Conn.rollback]


theorem per_file_stmts_spec (db : PgDb) :
    ∀ (qs : List String) (c : Conn) (r : ExecutionResult),
    per_file_stmts db qs c r =
      if qs.all db.execOk then
        ({ c with pending := c.pending ++ qs },
         { r with success_count := r.success_count + qs.length }, false)
      else
        ({ c with pending := [] },
         { r with success_count := r.success_count + (qs.takeWhile db.execOk).length,
                  error_count := r.error_count + 1 }, true) := by
  intro qs
  induction qs with
  | nil => intro c r; simp [per_file_stmts]
  | cons q qs ih =>
    intro c r
    cases hq : db.execOk q with
    | true =>
      rw [per_file_stmts, if_pos hq, ih]
      simp only [List.all_cons, hq, Bool.true_and, List.takeWhile_cons, if_pos hq]
      split
      · simp [List.append_assoc]
        omega
      · simp
        omega
    | false =>
      rw [per_file_stmts, if_neg (by simp [hq])]
      simp [List.all_cons, hq, List.takeWhile_cons, Conn.rollback]

theorem single_tx_loop_ok (db : PgDb) :
    ∀ (good tail : List SqlFile) (c : Conn) (r : ExecutionResult),
    (∀ f ∈ good, file_all_ok db f = true) →
    single_tx_loop db (good ++ tail) c r =
      single_tx_loop db tail
        { c with pending := c.pending ++ flat_queries good }
        { r with total_queries := r.total_queries + query_total good,
                 success_count := r.success_count + query_total good,
                 success_files := r.success_files + good.length } := by
  intro good
  induction good with
  | nil =>
    intro tail c r _
    simp [flat_queries, query_total]
  | cons f good ih =>
    intro tail c r hgood
    have hf : file_all_ok db f = true := hgood f (by simp)
    match f with
    | .unreadable => simp [file_all_ok] at hf
    | .readable sql =>
      have hall : (split_queries sql).all db.execOk = true := hf
      rw [List.cons_append, single_tx_loop]
      rw [single_tx_stmts_spec, if_pos hall]
      dsimp only
      rw [ih tail _ _ (fun g hg => hgood g (by simp [hg]))]
      simp only [flat_queries, query_total, List.map_cons, List.flatten_cons, List.sum_cons,
        file_queries, List.append_assoc]
      congr 2 <;> (try simp only [List.length_cons]) <;> omega


theorem takeWhile_pre (db : PgDb) :
    ∀ (pre : List String) (q : String) (post : List String),
    (∀ p ∈ pre, db.execOk p = true) → db.execOk q = false →
    (pre ++ q :: post).takeWhile db.execOk = pre := by
  intro pre
  induction pre with
  | nil => intro q post _ hq; simp [List.takeWhile_cons, hq]
  | cons p pre ih =>
    intro q post hpre hq
    have hp : db.execOk p = true := hpre p (by simp)
    simp only [List.cons_append, List.takeWhile_cons, hp]
    rw [ih q post (fun x hx => hpre x (by simp [hx])) hq]
    simp

theorem all_append_fail (db : PgDb) (pre : List String) (q : String) (post : List String)
    (hq : db.execOk q = false) :
    (pre ++ q :: post).all db.execOk = false := by
  simp [List.all_append, List.all_cons, hq]

theorem single_tx_fail_aux (db : PgDb) (c : Conn) (good rest : List SqlFile)
    (sql : String) (pre post : List String) (q : String)
    (hgood : ∀ f ∈ good, file_all_ok db f = true)
    (hsplit : split_queries sql = pre ++ q :: post)
    (hpre : ∀ p ∈ pre, db.execOk p = true)
    (hq : db.execOk q = false) :
    execute_files db (good ++ SqlFile.readable sql :: rest) true c =
      .ok (⟨c.autocommit, c.committed, [], c.commitOk⟩,
           { total_files := good.length + 1 + rest.length,
             success_files := good.length,
             failed_files := rest.length + 1,
             total_queries := query_total good + (pre.length + 1 + post.length),
             success_count := query_total good + pre.length,
             error_count := 1 }) := by
  unfold execute_files execute_single_transaction
  simp only [if_true]
  rw [single_tx_loop_ok db good (SqlFile.readable sql :: rest) _ _ hgood]
  rw [single_tx_loop]
  dsimp only
  rw [single_tx_stmts_spec]
  rw [hsplit, if_neg (by simp [all_append_fail db pre q post hq])]
  rw [takeWhile_pre db pre q post hpre hq]
  dsimp only
  simp only [Except.ok.injEq, Prod.mk.injEq, Conn.mk.injEq, ExecutionResult.mk.injEq,
    hsplit, List.length_append, List.length_cons]
  refine ⟨trivial, by omega, by omega, by omega, by omega, by omega, trivial⟩


theorem single_tx_read_fail_aux (db : PgDb) (c : Conn) (good rest : List SqlFile)
    (hgood : ∀ f ∈ good, file_all_ok db f = true) :
    execute_files db (good ++ SqlFile.unreadable :: rest) true c =
      .ok (⟨c.autocommit, c.committed, [], c.commitOk⟩,
           { total_files := good.length + 1 + rest.length,
             success_files := good.length,
             failed_files := 1,
             total_queries := query_total good,
             success_count := query_total good,
             error_count := 0 }) := by
  unfold execute_files execute_single_transaction
  simp only [if_true]
  rw [single_tx_loop_ok db good (SqlFile.unreadable :: rest) _ _ hgood]
  rw [single_tx_loop]
  dsimp only [Conn.rollback]
  simp only [Except.ok.injEq, Prod.mk.injEq, Conn.mk.injEq, ExecutionResult.mk.injEq,
    List.length_append, List.length_cons]
  exact ⟨trivial, by omega, by omega, trivial, by omega, by omega, trivial⟩

theorem single_tx_commit_aux (db : PgDb) (c : Conn) (files : List SqlFile)
    (hpend : c.pending = [])
    (hall : ∀ f ∈ files, file_all_ok db f = true)
    (hcommit : c.commitOk = true) :
    execute_files db files true c =
      .ok (⟨c.autocommit, c.committed ++ flat_queries files, [], c.commitOk⟩,
           { total_files := files.length,
             success_files := files.length,
             failed_files := 0,
             total_queries := query_total files,
             success_count := query_total files,
             error_count := 0 }) := by
  unfold execute_files execute_single_transaction
  simp only [if_true]
  have hloop := single_tx_loop_ok db files [] { c with autocommit := false }
    { total_files := files.length, success_files := 0, failed_files := 0,
      total_queries := 0, success_count := 0, error_count := 0 } hall
  rw [List.append_nil] at hloop
  rw [hloop, single_tx_loop]
  dsimp only
  rw [Conn.commit]
  simp only [hcommit, if_true, hpend]
  simp only [Except.ok.injEq, Prod.mk.injEq, Conn.mk.injEq, ExecutionResult.mk.injEq]
  exact ⟨⟨trivial, by simp, trivial, trivial⟩, trivial, by omega, trivial, by omega, by omega,
    trivial⟩


/-- C6 (amended): in single-transaction mode the connection's autocommit
flag is restored to its prior value whether the call returns or an
exception escapes (the `try/finally`); in per-file mode it is restored
whenever the call returns normally, which covers statement and read
failures.  (It is not restored when an exception escapes per-file mode;
see the counterexample.) -/
theorem autocommit_restored :
    (∀ (db : PgDb) (files : List SqlFile) (c : Conn),
       (conn_after (execute_files db files true c)).autocommit = c.autocommit) ∧
    (∀ (db : PgDb) (files : List SqlFile) (c c2 : Conn) (r2 : ExecutionResult),
       execute_files db files false c = .ok (c2, r2) → c2.autocommit = c.autocommit) := by
  constructor
  · intro db files c
    unfold execute_files execute_single_transaction
    simp only [if_true]
    rcases single_tx_loop db files { c with autocommit := false }
      { total_files := files.length, success_files := 0, failed_files := 0,
        total_queries := 0, success_count := 0, error_count := 0 } with ⟨c2, r2, b⟩
    cases b
    · rcases h2 : c2.commit with c3 | c3 <;> simp [conn_after, h2]
    · simp [conn_after]
  · intro db files c c2 r2 h
    unfold execute_files execute_per_file at h
    simp only [Bool.false_eq_true, if_false] at h
    rcases hl : per_file_loop db files c
      { total_files := files.length, success_files := 0, failed_files := 0,
        total_queries := 0, success_count := 0, error_count := 0 } with cErr | ⟨c3, r3⟩
    · rw [hl] at h
      simp at h
    · rw [hl] at h
      simp only [Except.ok.injEq, Prod.mk.injEq] at h
      rw [← h.1]


theorem takeWhile_length_of_all (p : String → Bool) :
    ∀ l : List String, l.all p = true → (l.takeWhile p).length = l.length := by
  intro l
  induction l with
  | nil => intro _; rfl
  | cons a l ih =>
    intro h
    simp only [List.all_cons, Bool.and_eq_true] at h
    simp [List.takeWhile_cons, h.1, ih h.2]

theorem flat_queries_cons (f : SqlFile) (l : List SqlFile) :
    flat_queries (f :: l) = file_queries f ++ flat_queries l := by
  simp [flat_queries]

theorem per_file_loop_spec (db : PgDb) :
    ∀ (files : List SqlFile) (c : Conn) (r : ExecutionResult),
    c.commitOk = true → c.pending = [] →
    ∃ ac : Bool,
      per_file_loop db files c r =
        .ok (⟨ac, c.committed ++ flat_queries (files.filter (file_all_ok db)), [], true⟩,
             { total_files := r.total_files,
               success_files := r.success_files + files.countP (file_all_ok db),
               failed_files := r.failed_files + files.countP (file_failed db),
               total_queries := r.total_queries + query_total files,
               success_count := r.success_count + ok_total db files,
               error_count := r.error_count + files.countP (file_stmt_error db) }) := by
  intro files
  induction files with
  | nil =>
    intro c r hc hp
    obtain ⟨ca, cc, cp, cco⟩ := c
    simp only at hc hp
    subst hc; subst hp
    exact ⟨ca, by simp [per_file_loop, flat_queries, query_total, ok_total]⟩
  | cons f rest ih =>
    intro c r hc hp
    obtain ⟨ca, cc, cp, cco⟩ := c
    simp only at hc hp
    subst hc; subst hp
    match f with
    | .unreadable =>
      obtain ⟨ac, hrest⟩ := ih ⟨ca, cc, [], true⟩ { r with failed_files := r.failed_files + 1 }
        rfl rfl
      refine ⟨ac, ?_⟩
      rw [per_file_loop, hrest]
      simp only [List.filter_cons, List.countP_cons, file_all_ok, file_failed, file_stmt_error,
        query_total, ok_total, file_ok_count, file_queries, List.map_cons, List.sum_cons]
      simp only [Except.ok.injEq, Prod.mk.injEq, Conn.mk.injEq, ExecutionResult.mk.injEq]
      and_intros <;> (try simp [flat_queries_cons, file_queries]) <;> (try omega)
    | .readable sql =>
      cases hall : (split_queries sql).all db.execOk with
      | true =>
        obtain ⟨ac, hrest⟩ := ih ⟨false, cc ++ ([] ++ split_queries sql), [], true⟩
          { r with total_queries := r.total_queries + (split_queries sql).length,
                   success_count := r.success_count + (split_queries sql).length,
                   success_files := r.success_files + 1 } rfl rfl
        refine ⟨ac, ?_⟩
        rw [per_file_loop]
        dsimp only
        rw [per_file_stmts_spec, if_pos hall]
        dsimp only
        rw [Conn.commit]
        simp only [if_true]
        rw [hrest]
        have htw := takeWhile_length_of_all db.execOk (split_queries sql) hall
        simp only [List.filter_cons, List.countP_cons, file_all_ok, file_failed, file_stmt_error,
          query_total, ok_total, file_ok_count, file_queries, List.map_cons, List.sum_cons,
          hall, Bool.not_true, Bool.false_eq_true, Bool.true_eq_false, if_true, if_false,
          ite_true, ite_false, List.flatten_cons, List.nil_append, List.append_assoc]
        simp only [Except.ok.injEq, Prod.mk.injEq, Conn.mk.injEq, ExecutionResult.mk.injEq]
        and_intros <;> (try simp [flat_queries_cons, file_queries]) <;> (try omega)
      | false =>
        obtain ⟨ac, hrest⟩ := ih ⟨false, cc, [], true⟩
          { r with total_queries := r.total_queries + (split_queries sql).length,
                   success_count := r.success_count + ((split_queries sql).takeWhile db.execOk).length,
                   error_count := r.error_count + 1,
                   failed_files := r.failed_files + 1 } rfl rfl
        refine ⟨ac, ?_⟩
        rw [per_file_loop]
        dsimp only
        rw [per_file_stmts_spec, if_neg (by simp [hall])]
        dsimp only
        rw [hrest]
        simp only [List.filter_cons, List.countP_cons, file_all_ok, file_failed, file_stmt_error,
          query_total, ok_total, file_ok_count, file_queries, List.map_cons, List.sum_cons,
          hall, Bool.not_false, Bool.false_eq_true, Bool.true_eq_false, if_true, if_false,
          ite_true, ite_false, List.flatten_cons, List.nil_append, List.append_assoc]
        simp only [Except.ok.injEq, Prod.mk.injEq, Conn.mk.injEq, ExecutionResult.mk.injEq]
        and_intros <;> (try simp [flat_queries_cons, file_queries]) <;> (try omega)


/-- C7: in per-file mode files are independent: every file is attempted,
`failed_files` counts exactly the files with a read or statement error,
`success_files` counts exactly the fully successful files, and the
committed statements are exactly those of the fully successful files, in
order — a failure in one file never blocks a later file's commit. -/
theorem per_file_independence (db : PgDb) (files : List SqlFile) (c : Conn)
    (hc : c.commitOk = true) (hp : c.pending = []) :
    execute_files db files false c =
      .ok (⟨c.autocommit, c.committed ++ flat_queries (files.filter (file_all_ok db)), [], true⟩,
           { total_files := files.length,
             success_files := files.countP (file_all_ok db),
             failed_files := files.countP (file_failed db),
             total_queries := query_total files,
             success_count := ok_total db files,
             error_count := files.countP (file_stmt_error db) }) := by
  unfold execute_files execute_per_file
  simp only [Bool.false_eq_true, if_false]
  obtain ⟨ac, hloop⟩ := per_file_loop_spec db files c
    { total_files := files.length, success_files := 0, failed_files := 0,
      total_queries := 0, success_count := 0, error_count := 0 } hc hp
  rw [hloop]
  simp only [Except.ok.injEq, Prod.mk.injEq, Conn.mk.injEq, ExecutionResult.mk.injEq]
  and_intros <;> (try simp) <;> (try omega)


/-- C1 (amended): in single-transaction mode the engine stops at the first
failure of any kind.  After a run of fully successful files, (1) the first
failing statement increments `error_count`, rolls the whole transaction
back, recomputes `failed_files` as `total_files - success_files`, and no
further statement or file is processed; (2) a file read failure rolls back
and stops identically except that `failed_files` is incremented by exactly
one (the code performs no recomputation on this path); (3) a final commit
publishing the statements happens exactly when every statement of every
file succeeded. -/
theorem single_transaction_all_or_nothing
    (db : PgDb) (c : Conn) (good rest files2 : List SqlFile) (sql : String)
    (pre post : List String) (q : String)
    (hpend : c.pending = [])
    (hgood : ∀ f ∈ good, file_all_ok db f = true)
    (hsplit : split_queries sql = pre ++ q :: post)
    (hpre : ∀ p ∈ pre, db.execOk p = true)
    (hq : db.execOk q = false)
    (hall2 : ∀ f ∈ files2, file_all_ok db f = true)
    (hcommit : c.commitOk = true) :
    (execute_files db (good ++ SqlFile.readable sql :: rest) true c =
      .ok (⟨c.autocommit, c.committed, [], c.commitOk⟩,
           { total_files := good.length + 1 + rest.length,
             success_files := good.length,
             failed_files := rest.length + 1,
             total_queries := query_total good + (pre.length + 1 + post.length),
             success_count := query_total good + pre.length,
             error_count := 1 })) ∧
    (execute_files db (good ++ SqlFile.unreadable :: rest) true c =
      .ok (⟨c.autocommit, c.committed, [], c.commitOk⟩,
           { total_files := good.length + 1 + rest.length,
             success_files := good.length,
             failed_files := 1,
             total_queries := query_total good,
             success_count := query_total good,
             error_count := 0 })) ∧
    (execute_files db files2 true c =
      .ok (⟨c.autocommit, c.committed ++ flat_queries files2, [], c.commitOk⟩,
           { total_files := files2.length,
             success_files := files2.length,
             failed_files := 0,
             total_queries := query_total files2,
             success_count := query_total files2,
             error_count := 0 })) :=
  ⟨single_tx_fail_aux db c good rest sql pre post q hgood hsplit hpre hq,
   single_tx_read_fail_aux db c good rest hgood,
   single_tx_commit_aux db c files2 hpend hall2 hcommit⟩

/-- Counterexample for C1 as frozen: with two files whose first is
unreadable, the code reports `failed_files = 1` while the claimed
recomputation `total_files - success_files` gives 2. -/
theorem single_transaction_read_failure_cex :
    (result_of (execute_files ⟨fun _ => true⟩
        [SqlFile.unreadable, SqlFile.readable "SELECT 1;"] true ⟨true, [], [], true⟩)).map
        (fun r => r.failed_files) = some 1 ∧
    (result_of (execute_files ⟨fun _ => true⟩
        [SqlFile.unreadable, SqlFile.readable "SELECT 1;"] true ⟨true, [], [], true⟩)).map
        (fun r => r.total_files - r.success_files) = some 2 ∧
    (1 : Nat) ≠ 2 :=
  ⟨by decide, by decide, by decide⟩

/-- Witness for C1 at concrete inputs. -/
theorem single_transaction_all_or_nothing_witness :
    dbW.execOk "BAD;" = false ∧
    (execute_files dbW [SqlFile.readable "SELECT 1;", SqlFile.readable "SELECT 2;\nBAD;"] true
        ⟨true, [], [], true⟩ =
      .ok (⟨true, [], [], true⟩, ⟨2, 1, 1, 3, 2, 1⟩)) ∧
    (execute_files dbW [SqlFile.readable "SELECT 1;", SqlFile.unreadable] true
        ⟨true, [], [], true⟩ =
      .ok (⟨true, [], [], true⟩, ⟨2, 1, 1, 1, 1, 0⟩)) ∧
    (execute_files dbW [SqlFile.readable "SELECT 1;"] true ⟨true, [], [], true⟩ =
      .ok (⟨true, ["SELECT 1;"], [], true⟩, ⟨1, 1, 0, 1, 1, 0⟩)) :=
  have h := single_transaction_all_or_nothing dbW ⟨true, [], [], true⟩
    [SqlFile.readable "SELECT 1;"] [] [SqlFile.readable "SELECT 1;"]
    "SELECT 2;\nBAD;" ["SELECT 2;"] [] "BAD;"
    rfl (by decide) (by decide) (by decide) (by decide) (by decide) rfl
  ⟨by decide, h.1, h.2.1, h.2.2⟩

/-- Counterexample for C6 as frozen: in per-file mode a commit failure
escapes the engine and the connection is left with `autocommit = false`
although it was `true` before the call — `_execute_per_file` has no
`finally` restoring it. -/
theorem per_file_autocommit_escape_cex :
    (conn_after (execute_files ⟨fun _ => true⟩ [SqlFile.readable "SELECT 1;"] false
        ⟨true, [], [], false⟩)).autocommit = false ∧
    (⟨true, [], [], false⟩ : Conn).autocommit = true :=
  ⟨by decide, rfl⟩

/-- Witness for C6 at a concrete input (per-file mode, normal return). -/
theorem autocommit_restored_witness :
    execute_files ⟨fun _ => true⟩ [] false ⟨true, [], [], true⟩ =
      .ok (⟨true, [], [], true⟩, ⟨0, 0, 0, 0, 0, 0⟩) ∧
    (⟨true, [], [], true⟩ : Conn).autocommit = (⟨true, [], [], true⟩ : Conn).autocommit :=
  ⟨rfl, autocommit_restored.2 ⟨fun _ => true⟩ [] ⟨true, [], [], true⟩
      ⟨true, [], [], true⟩ ⟨0, 0, 0, 0, 0, 0⟩ rfl⟩

/-- Witness for C7 at a concrete input: four files of which one fails on a
statement and one is unreadable; the two clean files are committed. -/
theorem per_file_independence_witness :
    (⟨true, [], [], true⟩ : Conn).commitOk = true ∧
    execute_files dbW [SqlFile.readable "SELECT 1;", SqlFile.readable "BAD;",
        SqlFile.unreadable, SqlFile.readable "SELECT 2;"] false ⟨true, [], [], true⟩ =
      .ok (⟨true, ["SELECT 1;", "SELECT 2;"], [], true⟩, ⟨4, 2, 2, 3, 2, 1⟩) :=
  ⟨rfl, per_file_independence dbW _ _ rfl rfl⟩

end Pgkit

namespace Pgkit

/-! ## Theorems about the schema dumper, the verification engine, and the
file reader -/

theorem isPrefixOf_append_false : ∀ (p f x : List Char),
    p.isPrefixOf f = false → f.isPrefixOf p = false →
    p.isPrefixOf (f ++ x) = false := by
  intro p
  induction p with
  | nil => intro f x h1 _; simp [List.isPrefixOf] at h1
  | cons a as ih =>
    intro f x h1 h2
    cases f with
    | nil => simp [List.isPrefixOf] at h2
    | cons b bs =>
      simp only [List.isPrefixOf, Bool.and_eq_false_iff] at h1 h2
      simp only [List.cons_append, List.isPrefixOf, Bool.and_eq_false_iff]
      cases hab : (a == b)
      · exact Or.inl rfl
      · right
        have hba : (b == a) = true := by
          rw [beq_iff_eq] at hab ⊢
          exact hab.symm
        rcases h1 with h1 | h1
        · rw [hab] at h1; cases h1
        · rcases h2 with h2 | h2
          · rw [hba] at h2; cases h2
          · exact ih bs x h1 h2

theorem isPrefixOf_exists : ∀ (p l : List Char), p.isPrefixOf l = true → ∃ t, l = p ++ t := by
  intro p
  induction p with
  | nil => intro l _; exact ⟨l, rfl⟩
  | cons a as ih =>
    intro l h
    cases l with
    | nil => simp [List.isPrefixOf] at h
    | cons b bs =>
      simp only [List.isPrefixOf, Bool.and_eq_true, beq_iff_eq] at h
      obtain ⟨t, ht⟩ := ih bs h.2
      exact ⟨t, by rw [h.1, ht]; rfl⟩

theorem startsWith_append_false (p f x : String)
    (h1 : Pgkit.startsWith p f = false) (h2 : Pgkit.startsWith f p = false) :
    Pgkit.startsWith p (f ++ x) = false := by
  unfold Pgkit.startsWith at h1 h2 ⊢
  rw [String.data_append]
  exact isPrefixOf_append_false _ _ _ h1 h2

theorem is_fk_alter_line_false {l : String}
    (h : Pgkit.startsWith "ALTER TABLE" l = false) :
    is_fk_alter_line l = false := by
  simp [is_fk_alter_line, h]

theorem forall_mem_section_header (P : String → Prop) (title : String)
    (h1 : P "-- ===========================================")
    (h2 : P ("-- " ++ title)) (h3 : P "") :
    ∀ l ∈ section_header title, P l := by
  intro l hl
  simp only [section_header, List.mem_cons, List.not_mem_nil, or_false] at hl
  rcases hl with h | h | h | h <;> subst h <;> assumption

theorem startsWith_exists (p l : String) (h : Pgkit.startsWith p l = true) :
    ∃ t : String, l = p ++ t := by
  unfold Pgkit.startsWith at h
  obtain ⟨t, ht⟩ := isPrefixOf_exists _ _ h
  refine ⟨⟨t⟩, ?_⟩
  apply String.ext
  rw [String.data_append, ht]

theorem alter_pyJoin_indent : ∀ (ls : List String),
    (∀ l ∈ ls, ∃ s : String, l = "    " ++ s) →
    Pgkit.startsWith "ALTER TABLE" (pyJoin ",\n" ls) = false := by
  intro ls
  induction ls with
  | nil => intro _; decide
  | cons x xs ih =>
    intro h
    obtain ⟨s, hs⟩ := h x (by simp)
    cases xs with
    | nil =>
      rw [show pyJoin ",\n" [x] = x from rfl, hs]
      exact startsWith_append_false _ _ _ (by decide) (by decide)
    | cons y ys =>
      rw [show pyJoin ",\n" (x :: y :: ys) = x ++ ",\n" ++ pyJoin ",\n" (y :: ys) from rfl, hs]
      rw [String.append_assoc, String.append_assoc]
      exact startsWith_append_false _ _ _ (by decide) (by decide)

theorem no_alter_header (now schema : String) (b : Bool) :
    ∀ l ∈ (if b then ([] : List String)
           else ["-- PostgreSQL Schema Dump", "-- Generated: " ++ now,
                 "-- Schema: " ++ schema, ""]),
      Pgkit.startsWith "ALTER TABLE" l = false := by
  intro l hl
  cases b with
  | true => simp at hl
  | false =>
    simp only [if_false, Bool.false_eq_true, List.mem_cons, List.not_mem_nil, or_false] at hl
    rcases hl with rfl | rfl | rfl | rfl
    · decide
    · exact startsWith_append_false _ _ _ (by decide) (by decide)
    · exact startsWith_append_false _ _ _ (by decide) (by decide)
    · decide

theorem no_alter_extensions (cat : Catalog) :
    ∀ l ∈ dump_extensions cat, Pgkit.startsWith "ALTER TABLE" l = false := by
  intro l hl
  unfold dump_extensions at hl
  split at hl
  · simp at hl
  · rcases List.mem_append.mp hl with hl | hl
    · rcases List.mem_append.mp hl with hl | hl
      · exact forall_mem_section_header (fun l => Pgkit.startsWith "ALTER TABLE" l = false) _
          (by decide) (startsWith_append_false _ _ _ (by decide) (by decide)) (by decide) l hl
      · obtain ⟨e, _, rfl⟩ := List.mem_map.mp hl
        exact startsWith_append_false _ _ _ (by decide) (by decide)
    · simp only [List.mem_cons, List.not_mem_nil, or_false] at hl
      subst hl; decide

theorem no_alter_enums (cat : Catalog) (schema : String) :
    ∀ l ∈ dump_enums cat schema, Pgkit.startsWith "ALTER TABLE" l = false := by
  intro l hl
  unfold dump_enums at hl
  dsimp only at hl
  split at hl
  · simp at hl
  · rcases List.mem_append.mp hl with hl | hl
    · rcases List.mem_append.mp hl with hl | hl
      · exact forall_mem_section_header (fun l => Pgkit.startsWith "ALTER TABLE" l = false) _
          (by decide) (startsWith_append_false _ _ _ (by decide) (by decide)) (by decide) l hl
      · obtain ⟨e, _, rfl⟩ := List.mem_map.mp hl
        exact startsWith_append_false _ _ _ (by decide) (by decide)
    · simp only [List.mem_cons, List.not_mem_nil, or_false] at hl
      subst hl; decide

theorem no_alter_sequences (cat : Catalog) (schema : String) (ts : List String) :
    ∀ l ∈ dump_sequences cat schema ts, Pgkit.startsWith "ALTER TABLE" l = false := by
  intro l hl
  unfold dump_sequences at hl
  dsimp only at hl
  split at hl
  · simp at hl
  · rcases List.mem_append.mp hl with hl | hl
    · rcases List.mem_append.mp hl with hl | hl
      · exact forall_mem_section_header (fun l => Pgkit.startsWith "ALTER TABLE" l = false) _
          (by decide) (startsWith_append_false _ _ _ (by decide) (by decide)) (by decide) l hl
      · obtain ⟨e, _, rfl⟩ := List.mem_map.mp hl
        exact startsWith_append_false _ _ _ (by decide) (by decide)
    · simp only [List.mem_cons, List.not_mem_nil, or_false] at hl
      subst hl; decide

theorem no_alter_table_block (cat : Catalog) (schema : String) (ts : List String) :
    ∀ l ∈ (ts.map (fun t => dump_table cat schema t ++ [""])).flatten,
      Pgkit.startsWith "ALTER TABLE" l = false := by
  intro l hl
  rw [List.mem_flatten] at hl
  obtain ⟨block, hb, hlb⟩ := hl
  obtain ⟨t, _, rfl⟩ := List.mem_map.mp hb
  rcases List.mem_append.mp hlb with hl | hl
  · unfold dump_table at hl
    simp only [List.mem_cons, List.not_mem_nil, or_false] at hl
    rcases hl with rfl | rfl | rfl | rfl
    · exact startsWith_append_false _ _ _ (by decide) (by decide)
    · exact startsWith_append_false _ _ _ (by decide) (by decide)
    · apply alter_pyJoin_indent
      intro l' hl'
      rcases List.mem_append.mp hl' with h' | h'
      · rcases List.mem_append.mp h' with h' | h'
        · rcases List.mem_append.mp h' with h' | h'
          · obtain ⟨c, _, rfl⟩ := List.mem_map.mp h'
            exact ⟨_, rfl⟩
          · have hm : ∀ l'' ∈ (match cat.primary_key schema t with
                | some p => ["    " ++ ("CONSTRAINT " ++ quoteId p.name ++
                    " PRIMARY KEY (" ++ pyJoin ", " (List.map quoteId p.columns) ++ ")")]
                | none => ([] : List String)), ∃ s : String, l'' = "    " ++ s := by
              rcases cat.primary_key schema t with _ | p
              · simp
              · intro l'' h''
                simp only [List.mem_cons, List.not_mem_nil, or_false] at h''
                subst h''; exact ⟨_, rfl⟩
            exact hm l' h'
        · obtain ⟨u, _, rfl⟩ := List.mem_map.mp h'
          exact ⟨_, rfl⟩
      · obtain ⟨k, _, rfl⟩ := List.mem_map.mp h'
        exact ⟨_, rfl⟩
    · decide
  · simp only [List.mem_cons, List.not_mem_nil, or_false] at hl
    subst hl; decide

theorem no_ct_section_header (title : String)
    (h : is_create_table_line ("-- " ++ title) = false) :
    ∀ l ∈ section_header title, is_create_table_line l = false :=
  forall_mem_section_header (fun l => is_create_table_line l = false) title
    (by decide) h (by decide)

theorem mem_if_filter {α : Type} (p : α → Bool) (b : Bool) (l : List α) :
    ∀ x ∈ (if b then l else l.filter p), x ∈ l := by
  intro x hx
  split at hx
  · exact hx
  · exact (List.mem_filter.mp hx).1

theorem no_ct_fk_lines (schema : String) (rows : List FkRow) :
    ∀ l ∈ (if rows.isEmpty then ([] : List String)
           else section_header "FOREIGN KEYS" ++
             rows.map (fun r =>
               "ALTER TABLE " ++ (quoteId schema ++ "." ++ quoteId r.table_name ++
                 " ADD CONSTRAINT " ++ quoteId r.conname ++ " " ++ r.definition ++ ";")) ++
             [""]),
      is_create_table_line l = false := by
  intro l hl
  split at hl
  · simp at hl
  · rcases List.mem_append.mp hl with hl | hl
    · rcases List.mem_append.mp hl with hl | hl
      · exact no_ct_section_header _ (startsWith_append_false _ _ _ (by decide) (by decide)) l hl
      · obtain ⟨r, _, rfl⟩ := List.mem_map.mp hl
        exact startsWith_append_false _ _ _ (by decide) (by decide)
    · simp only [List.mem_cons, List.not_mem_nil, or_false] at hl
      subst hl; decide

theorem no_ct_foreign_keys (cat : Catalog) (schema : String) (tables : List String) :
    ∀ l ∈ dump_foreign_keys cat schema tables, is_create_table_line l = false := by
  intro l hl
  unfold dump_foreign_keys at hl
  exact no_ct_fk_lines schema _ l hl

theorem no_ct_index_lines (rows : List IndexRow)
    (h : ∀ r ∈ rows, is_create_table_line (r.indexdef ++ ";") = false) :
    ∀ l ∈ render_index_section rows, is_create_table_line l = false := by
  intro l hl
  unfold render_index_section at hl
  split at hl
  · simp at hl
  · rcases List.mem_append.mp hl with hl | hl
    · rcases List.mem_append.mp hl with hl | hl
      · exact no_ct_section_header _ (startsWith_append_false _ _ _ (by decide) (by decide)) l hl
      · obtain ⟨r, hr, rfl⟩ := List.mem_map.mp hl
        exact h r hr
    · simp only [List.mem_cons, List.not_mem_nil, or_false] at hl
      subst hl; decide

theorem no_ct_indexes (cat : Catalog) (schema : String) (tables : List String)
    (hidx : ∀ r ∈ cat.pg_indexes schema,
      Pgkit.startsWith "CREATE INDEX" r.indexdef = true) :
    ∀ l ∈ dump_indexes cat schema tables, is_create_table_line l = false := by
  intro l hl
  unfold dump_indexes at hl
  refine no_ct_index_lines _ ?_ l hl
  intro r hr
  have hr1 := mem_if_filter (fun r => index_belongs_to r.indexdef tables) tables.isEmpty _ r hr
  have hr2 := (List.mem_filter.mp hr1).1
  obtain ⟨t, ht⟩ := startsWith_exists _ _ (hidx r hr2)
  rw [ht, String.append_assoc]
  exact startsWith_append_false _ _ _ (by decide) (by decide)

theorem no_ct_views (cat : Catalog) (schema : String)
    (hview : ∀ v ∈ cat.pg_views schema, is_create_table_line (view_body v) = false) :
    ∀ l ∈ dump_views cat schema, is_create_table_line l = false := by
  intro l hl
  unfold dump_views at hl
  dsimp only at hl
  split at hl
  · simp at hl
  · rcases List.mem_append.mp hl with hl | hl
    · exact no_ct_section_header _ (startsWith_append_false _ _ _ (by decide) (by decide)) l hl
    · rw [List.mem_flatten] at hl
      obtain ⟨block, hb, hlb⟩ := hl
      obtain ⟨v, hv, rfl⟩ := List.mem_map.mp hb
      simp only [List.mem_cons, List.not_mem_nil, or_false] at hlb
      rcases hlb with rfl | rfl | rfl
      · exact startsWith_append_false _ _ _ (by decide) (by decide)
      · exact hview v hv
      · decide

theorem no_ct_data_section (cat : Catalog) (schema : String) (ts : List String) (b : Bool) :
    ∀ l ∈ (if b then
        ["", "-- ===========================================", "-- DATA",
         "-- ===========================================", ""] ++
        (ts.map (fun t => dump_data cat schema t)).flatten
      else []),
      is_create_table_line l = false := by
  intro l hl
  cases b with
  | false => simp at hl
  | true =>
    simp only [if_true] at hl
    rcases List.mem_append.mp hl with hl | hl
    · simp only [List.mem_cons, List.not_mem_nil, or_false] at hl
      rcases hl with rfl | rfl | rfl | rfl | rfl <;> decide
    · rw [List.mem_flatten] at hl
      obtain ⟨block, hb, hlb⟩ := hl
      obtain ⟨t, _, rfl⟩ := List.mem_map.mp hb
      unfold dump_data at hlb
      dsimp only at hlb
      split at hlb
      · simp at hlb
      · obtain ⟨row, _, rfl⟩ := List.mem_map.mp hlb
        exact startsWith_append_false _ _ _ (by decide) (by decide)

theorem take_drop_split (A B : List String) (P Q : String → Prop)
    (hA : ∀ l ∈ A, P l) (hB : ∀ l ∈ B, Q l) :
    ∃ n, (∀ l ∈ (A ++ B).take n, P l) ∧ (∀ l ∈ (A ++ B).drop n, Q l) := by
  refine ⟨A.length, ?_, ?_⟩
  · rw [List.take_left]
    exact hA
  · rw [List.drop_left]
    exact hB

/-- C3 (amended): within one schema dump (`dump`, which also produces
each schema section of `dump_database`), the emitted line sequence splits
into a prefix holding every `CREATE TABLE` statement and a suffix holding
every `ALTER TABLE ... FOREIGN KEY` statement, so inside a schema all
table creations precede all foreign keys and mutually referencing tables
never block replay.  Hypotheses: catalog index definitions start with
`CREATE INDEX` and view bodies do not start with `CREATE TABLE`. -/
theorem dump_create_tables_before_foreign_keys (cat : Catalog) (now schema : String)
    (tables : Option (List String)) (include_data skip_header skip_extensions : Bool)
    (hidx : ∀ r ∈ cat.pg_indexes schema,
      Pgkit.startsWith "CREATE INDEX" r.indexdef = true)
    (hview : ∀ v ∈ cat.pg_views schema, is_create_table_line (view_body v) = false) :
    ∃ n,
      (∀ l ∈ (dump_lines cat now tables include_data schema skip_header skip_extensions).take n,
        is_fk_alter_line l = false) ∧
      (∀ l ∈ (dump_lines cat now tables include_data schema skip_header skip_extensions).drop n,
        is_create_table_line l = false) := by
  unfold dump_lines
  dsimp only
  apply take_drop_split
  · intro l hl
    apply is_fk_alter_line_false
    rcases List.mem_append.mp hl with hl | hl
    · rcases List.mem_append.mp hl with hl | hl
      · rcases List.mem_append.mp hl with hl | hl
        · rcases List.mem_append.mp hl with hl | hl
          · exact no_alter_header now schema skip_header l hl
          · split at hl
            · simp at hl
            · exact no_alter_extensions cat l hl
        · exact no_alter_enums cat schema l hl
      · exact no_alter_sequences cat schema _ l hl
    · exact no_alter_table_block cat schema _ l hl
  · intro l hl
    rcases List.mem_append.mp hl with hl | hl
    · rcases List.mem_append.mp hl with hl | hl
      · rcases List.mem_append.mp hl with hl | hl
        · exact no_ct_foreign_keys cat schema _ l hl
        · exact no_ct_indexes cat schema _ hidx l hl
      · exact no_ct_views cat schema hview l hl
    · exact no_ct_data_section cat schema _ include_data l hl

/-- C5 (amended): when the filtered table set is nonempty, the index
section emits exactly the `pg_indexes` rows that do not back a PRIMARY
KEY or UNIQUE constraint and whose definition matches a target table,
quoted or unquoted. -/
theorem dump_indexes_emits_filtered (cat : Catalog) (schema : String) (tables : List String)
    (h : tables ≠ []) :
    dump_indexes cat schema tables =
      render_index_section
        ((cat.pg_indexes schema).filter (index_emitted_spec cat schema tables)) := by
  have hne : tables.isEmpty = false := by
    cases tables with
    | nil => exact absurd rfl h
    | cons a l => rfl
  unfold dump_indexes
  simp only [hne, Bool.false_eq_true, if_false]
  rw [List.filter_filter]
  congr 1
  congr 1
  funext a
  unfold index_emitted_spec
  cases h1 : index_belongs_to a.indexdef tables <;>
    cases h2 : containsSub "UNIQUE".data a.indexdef.data <;>
      cases h3 : (cat.pu_con_names schema).contains a.indexname <;>
        simp [h1, h2, h3]

/-- Counterexample for C5 as frozen: with an empty filtered table set the
Python truthiness test skips the ownership filter entirely and an index
belonging to no table in the set is still emitted. -/
theorem dump_indexes_empty_filter_cex :
    dump_indexes cat5 "public" [] =
      section_header "INDEXES" ++ ["CREATE INDEX i1 ON public.t USING btree (c);"] ++ [""] ∧
    render_index_section
      ((cat5.pg_indexes "public").filter (index_emitted_spec cat5 "public" [])) = [] ∧
    dump_indexes cat5 "public" [] ≠
      render_index_section
        ((cat5.pg_indexes "public").filter (index_emitted_spec cat5 "public" [])) :=
  ⟨by decide, by decide, by decide⟩

/-- Witness for C5 at a concrete catalog and a nonempty table set. -/
theorem dump_indexes_emits_filtered_witness :
    (["t"] : List String) ≠ [] ∧
    dump_indexes cat5 "public" ["t"] =
      render_index_section
        ((cat5.pg_indexes "public").filter (index_emitted_spec cat5 "public" ["t"])) :=
  ⟨by decide, dump_indexes_emits_filtered cat5 "public" ["t"] (by decide)⟩

/-- Counterexample for C3 as frozen: in a `dump_database` over two
schemas, a foreign-key `ALTER TABLE` line of the first schema appears
before a `CREATE TABLE` line of the second schema — deferral is
per-schema, not global across schemas. -/
theorem dump_database_cross_schema_fk_cex :
    (match (splitLines (dump_database cat3 "2026-10-12 00:00:00" false)).dropWhile
        (fun l => !(is_fk_alter_line l)) with
     | [] => false
     | fk_line :: rest_lines =>
       is_fk_alter_line fk_line && rest_lines.any is_create_table_line) = true := by
  decide

/-- Witness for C3 at a concrete catalog. -/
theorem dump_create_tables_before_foreign_keys_witness :
    (∀ r ∈ cat3.pg_indexes "public", Pgkit.startsWith "CREATE INDEX" r.indexdef = true) ∧
    (∀ v ∈ cat3.pg_views "public", is_create_table_line (view_body v) = false) ∧
    (∃ n,
      (∀ l ∈ (dump_lines cat3 "2026-10-12 00:00:00" none false "public" false false).take n,
        is_fk_alter_line l = false) ∧
      (∀ l ∈ (dump_lines cat3 "2026-10-12 00:00:00" none false "public" false false).drop n,
        is_create_table_line l = false)) :=
  ⟨by decide, by decide,
   dump_create_tables_before_foreign_keys cat3 "2026-10-12 00:00:00" "public" none
     false false false (by decide) (by decide)⟩

/-- C8: `verify` never raises.  When the table queries succeed, every
table appears in `table_rows` with its real count or the -1 sentinel (a
per-table failure never stops the loop), and the errors list is exactly
the message of the first query failure after that, with the
partially-filled result still returned. -/
theorem verify_best_effort (env : VerifyEnv) (n : Nat) (ts : List String)
    (h1 : env.countTables = .ok n) (h2 : env.listTables = .ok ts) :
    (verify env).table_count = n ∧
    (verify env).table_rows = ts.map (fun t => (t, row_val env t)) ∧
    (verify env).errors = later_errors env := by
  unfold verify later_errors
  rw [h1, h2]
  have hrows : count_rows_per_table env ts = ts.map (fun t => (t, row_val env t)) := by
    unfold count_rows_per_table row_val
    congr 1
    funext t
    rcases h : env.rowCount t with e | k <;> simp [h]
  rcases h3 : env.countSequences with e | ns
  · simp [hrows]
  · rcases h4 : env.countIndexes with e | ni
    · simp [hrows]
    · rcases h5 : env.countViews with e | nv
      · simp [hrows]
      · simp [hrows]

/-- Witness for C8: two tables of which one fails its count, and a
failing sequence query. -/
theorem verify_best_effort_witness :
    (VerifyEnv.mk (.ok 2) (.ok ["a", "b"])
        (fun t => if t = "a" then .ok 5 else .error "boom")
        (.error "lost") (.ok 0) (.ok 0)).countTables = .ok 2 ∧
    ((verify (VerifyEnv.mk (.ok 2) (.ok ["a", "b"])
        (fun t => if t = "a" then .ok 5 else .error "boom")
        (.error "lost") (.ok 0) (.ok 0))).table_count = 2 ∧
     (verify (VerifyEnv.mk (.ok 2) (.ok ["a", "b"])
        (fun t => if t = "a" then .ok 5 else .error "boom")
        (.error "lost") (.ok 0) (.ok 0))).table_rows =
       ["a", "b"].map (fun t => (t, row_val (VerifyEnv.mk (.ok 2) (.ok ["a", "b"])
        (fun t => if t = "a" then .ok 5 else .error "boom")
        (.error "lost") (.ok 0) (.ok 0)) t)) ∧
     (verify (VerifyEnv.mk (.ok 2) (.ok ["a", "b"])
        (fun t => if t = "a" then .ok 5 else .error "boom")
        (.error "lost") (.ok 0) (.ok 0))).errors =
       later_errors (VerifyEnv.mk (.ok 2) (.ok ["a", "b"])
        (fun t => if t = "a" then .ok 5 else .error "boom")
        (.error "lost") (.ok 0) (.ok 0))) :=
  ⟨rfl, verify_best_effort _ 2 ["a", "b"] rfl rfl⟩

/-- C9: the errors list of a verification result has at most one entry —
the single outer handler is the only site that appends, and it returns
immediately. -/
theorem verify_errors_at_most_one (env : VerifyEnv) :
    (verify env).errors.length ≤ 1 := by
  unfold verify
  rcases env.countTables with e | n
  · simp
  · rcases env.listTables with e | ts
    · simp
    · rcases env.countSequences with e | ns
      · simp
      · rcases env.countIndexes with e | ni
        · simp
        · rcases env.countViews with e | nv
          · simp
          · simp

/-- C10: the encoding-failure branch of `_read_file` is unreachable for
decodable-content reasons: whatever the UTF-8 and CP949 decoders do,
Latin-1 accepts every byte sequence, so a read error can only be an
OS-level failure. -/
theorem read_file_latin1_total (utf8_decode cp949_decode : List (Fin 256) → Option String)
    (file : Except Unit (List (Fin 256))) :
    read_file utf8_decode cp949_decode file ≠ .error .encodingError := by
  unfold read_file
  rcases file with e | bs
  · simp
  · rcases h1 : utf8_decode bs with _ | s
    · rcases h2 : cp949_decode bs with _ | s
      · simp [h1, h2, latin1_decode]
      · simp [h1, h2]
    · simp [h1]

end Pgkit
